import Mathlib

/-!
A shallow embedding of `cdsdl.py`, a command-line downloader for Climate Data
Store datasets.

The script parses `dataset`, `variable`, `output_directory`, `--start` and
`--end`, rejects `start ≥ end` via `sys.exit`, creates
`os.path.join(output_directory, variable)`, and then iterates
`for year in range(start_year, end_year): for month in range(1, 13)`.
Each iteration formats `year`/`month` as strings, builds the target path,
reads `datetime.now()`, breaks out of the month loop when the formatted
`year_month` tag equals the formatted tag of `now`, skips the cell when the
target file exists, and otherwise emits a retrieval request to the CDS
client.

Embedding choices:
* Side effects are an explicit event trace (`Event`): the `os.makedirs`
  call, the three `print` statements (as structured constructors, one per
  distinct message template), and `client.retrieve`.
* The filesystem is a predicate `fs : String → Bool` modelling
  `os.path.isfile`.
* `datetime.now()` is read once at the top of each (year, month) iteration;
  since every iteration is uniquely identified by its (year, month) pair,
  the sequence of readings is modelled as `clock : Int → Nat → Int × Nat`,
  giving the current (year, month) observed when cell (y, m) is processed.
* Python string formatting `f"{n}"` / `f"{n:02d}"` is modelled by an
  executable decimal renderer (`nat_repr`, `int_to_string`, `month_str`).
* `os.path.join` on two components is modelled by `path_join`, following
  the posixpath semantics (absolute second component wins; a separator is
  inserted unless the first component is empty or already ends with one).
-/

namespace Cdsdl

/-- Decimal digits of `n`, most significant first, with explicit fuel
(the recursion `n ↦ n / 10` terminates well before the fuel `n + 1` runs
out). Mirrors Python's decimal rendering of a nonnegative integer. -/
def nat_repr_aux : Nat → Nat → List Char
  | 0, _ => []
  | fuel + 1, n =>
    if n < 10 then [Nat.digitChar n]
    else nat_repr_aux fuel (n / 10) ++ [Nat.digitChar (n % 10)]

/-- Python `str(n)` for a natural number. -/
def nat_repr (n : Nat) : String := String.mk (nat_repr_aux (n + 1) n)

/-- Python `str(i)` / `f"{i}"` for an integer. -/
def int_to_string : Int → String
  | Int.ofNat n => nat_repr n
  | Int.negSucc n => "-" ++ nat_repr (n + 1)

/-- Python `f"{m:02d}"` for the month values used by the script:
zero-padded to two digits. -/
def month_str (m : Nat) : String :=
  if m < 10 then "0" ++ nat_repr m else nat_repr m

/-- Python `b.startswith('/')`. -/
def starts_with_sep (b : String) : Bool :=
  match b.data with
  | [] => false
  | c :: _ => c = '/'

/-- Python `a.endswith('/')`. -/
def ends_with_sep (a : String) : Bool :=
  match a.data.getLast? with
  | none => false
  | some c => c = '/'

/-- `os.path.join(a, b)` for two components (posixpath semantics). -/
def path_join (a b : String) : String :=
  if starts_with_sep b then b
  else if a = "" ∨ ends_with_sep a then a ++ b
  else a ++ "/" ++ b

/-- The request dictionary handed to `client.retrieve`. -/
structure Request where
  variable_ : List String
  year : String
  month : String
  day : List String
  time : List String
  data_format : String
  download_format : String
deriving DecidableEq

/-- The fixed `"day"` enumeration of the request dictionary. -/
def days : List String :=
  ["01", "02", "03",
   "04", "05", "06",
   "07", "08", "09",
   "10", "11", "12",
   "13", "14", "15",
   "16", "17", "18",
   "19", "20", "21",
   "22", "23", "24",
   "25", "26", "27",
   "28", "29", "30",
   "31"]

/-- The fixed `"time"` enumeration of the request dictionary. -/
def times : List String :=
  ["00:00", "01:00", "02:00",
   "03:00", "04:00", "05:00",
   "06:00", "07:00", "08:00",
   "09:00", "10:00", "11:00",
   "12:00", "13:00", "14:00",
   "15:00", "16:00", "17:00",
   "18:00", "19:00", "20:00",
   "21:00", "22:00", "23:00"]

/-- The request literal from the script, for already-formatted `year` and
`month` strings. -/
def mk_request (variable_ year month : String) : Request :=
  { variable_ := [variable_]
    year := year
    month := month
    day := days
    time := times
    data_format := "netcdf"
    download_format := "unarchived" }

/-- One observable side effect of the script: the `os.makedirs` call, the
three distinct `print` templates, and a `client.retrieve` call. -/
inductive Event where
  | makedirs (path : String)
  | skip_current (target : String)
  | skip_exists (target : String)
  | downloading (target : String)
  | retrieve (dataset : String) (request : Request) (target : String)
deriving DecidableEq

/-- Python `range(1, 13)`: the month sequence of the inner loop. -/
def months_list : List Nat := List.range' 1 12

/-- Python `range(a, _)` of a given length, enumerated from `a`. -/
def int_range_aux (a : Int) : Nat → List Int
  | 0 => []
  | n + 1 => a :: int_range_aux (a + 1) n

/-- Python `range(a, b)` over integers. -/
def int_range (a b : Int) : List Int := int_range_aux a (b - a).toNat

/-- The target path of cell (y, m):
`os.path.join(output_directory, f"{year}_{month}.nc")`. -/
def target_path (output_directory : String) (y : Int) (m : Nat) : String :=
  path_join output_directory (int_to_string y ++ "_" ++ month_str m ++ ".nc")

/-- The `f"{year}_{month}"` tag of a loop cell, with `year = f"{y}"` and
`month = f"{m:02d}"` the formatted loop variables. -/
def cell_tag (y : Int) (m : Nat) : String :=
  int_to_string y ++ "_" ++ month_str m

/-- The `f"{now.year}_{now.month:02d}"` tag of a clock reading. -/
def now_tag (now : Int × Nat) : String :=
  int_to_string now.1 ++ "_" ++ month_str now.2

/-- The inner month loop of the script, over the remaining month list.
Per iteration: format year and month, build the target path, read the
clock, break on the current-month tag match, skip existing files, and
otherwise print and retrieve. -/
def month_loop (dataset variable_ output_directory : String) (fs : String → Bool)
    (clock : Int → Nat → Int × Nat) (y : Int) : List Nat → List Event
  | [] => []
  | m :: rest =>
    let year := int_to_string y
    let month := month_str m
    let target := target_path output_directory y m
    if cell_tag y m = now_tag (clock y m) then
      [Event.skip_current target]
    else if fs target then
      Event.skip_exists target ::
        month_loop dataset variable_ output_directory fs clock y rest
    else
      Event.downloading target ::
        Event.retrieve dataset (mk_request variable_ year month) target ::
          month_loop dataset variable_ output_directory fs clock y rest

/-- The outer year loop of the script. -/
def year_loop (dataset variable_ output_directory : String) (fs : String → Bool)
    (clock : Int → Nat → Int × Nat) : List Int → List Event
  | [] => []
  | y :: rest =>
    month_loop dataset variable_ output_directory fs clock y months_list ++
      year_loop dataset variable_ output_directory fs clock rest

/-- The whole script after argument parsing: the `start < end` precondition
check (`sys.exit` on violation, modelled as `Except.error` with the exact
message), the `os.makedirs` call on `os.path.join(output_directory,
variable)`, and the year loop. -/
def cdsdl (dataset variable_ output_directory_arg : String)
    (start_year end_year : Int) (fs : String → Bool)
    (clock : Int → Nat → Int × Nat) : Except String (List Event) :=
  let output_directory := path_join output_directory_arg variable_
  if ¬ start_year < end_year then
    Except.error "start year must be less than end year"
  else
    Except.ok
      (Event.makedirs output_directory ::
        year_loop dataset variable_ output_directory fs clock
          (int_range start_year end_year))

/-- The event trace of a run (empty when the precondition check fails,
since `sys.exit` fires before any directory creation or retrieval). -/
def events_of : Except String (List Event) → List Event
  | Except.ok evs => evs
  | Except.error _ => []

/-- The target paths handed to `client.retrieve`, in call order. -/
def retrieve_targets (evs : List Event) : List String :=
  evs.filterMap fun e =>
    match e with
    | Event.retrieve _ _ tgt => some tgt
    | _ => none

/-- The (year, month) string pair of each `client.retrieve` call, in call
order. -/
def retrieve_cells (evs : List Event) : List (String × String) :=
  evs.filterMap fun e =>
    match e with
    | Event.retrieve _ r _ => some (r.year, r.month)
    | _ => none

/-- Chronological order on (year, month) cells. -/
def chron (a b : Int × Nat) : Prop :=
  a.1 < b.1 ∨ (a.1 = b.1 ∧ a.2 < b.2)

example : nat_repr 2020 = "2020" := rfl
example : nat_repr 0 = "0" := rfl
example : int_to_string (-17) = "-17" := rfl
example : month_str 3 = "03" := rfl
example : month_str 12 = "12" := rfl
example : path_join "/data/db/cds" "x.nc" = "/data/db/cds/x.nc" := rfl
example : path_join "a/" "x.nc" = "a/x.nc" := rfl
example : path_join "a" "/x.nc" = "/x.nc" := rfl
example : int_range 2020 2023 = [2020, 2021, 2022] := rfl
example : int_range 5 5 = [] := rfl
example : int_range 5 3 = [] := rfl
example : months_list = [1, 2, 3, 4, 5, 6, 7, 8, 9, 10, 11, 12] := rfl

example :
    cdsdl "ds" "v" "out" 2020 2020 (fun _ => false) (fun _ _ => (2025, 3)) =
      Except.error "start year must be less than end year" := rfl

/-! ### Decimal rendering: basic facts -/

/-- Reading a digit string back as a number (used only to prove that the
renderer is injective). -/
def decode_digits (l : List Char) : Nat :=
  l.foldl (fun a c => 10 * a + (c.toNat - 48)) 0

theorem decode_digits_append (l : List Char) (c : Char) :
    decode_digits (l ++ [c]) = 10 * decode_digits l + (c.toNat - 48) := by
  simp [decode_digits, List.foldl_append]

theorem digitChar_toNat_sub (n : Nat) (h : n < 10) :
    (Nat.digitChar n).toNat - 48 = n := by
  interval_cases n <;> rfl

theorem decode_nat_repr_aux :
    ∀ fuel n, n < fuel → decode_digits (nat_repr_aux fuel n) = n := by
  intro fuel
  induction fuel with
  | zero => intro n h; omega
  | succ f ih =>
    intro n h
    by_cases h10 : n < 10
    · simp [nat_repr_aux, h10, decode_digits, digitChar_toNat_sub n h10]
    · have hdiv : n / 10 < f := by
        have h1 : n / 10 < n := Nat.div_lt_self (by omega) (by norm_num)
        omega
      rw [nat_repr_aux, if_neg h10, decode_digits_append, ih (n / 10) hdiv,
        digitChar_toNat_sub (n % 10) (Nat.mod_lt n (by norm_num))]
      omega

theorem nat_repr_injective : Function.Injective nat_repr := by
  intro a b h
  have hdata : nat_repr_aux (a + 1) a = nat_repr_aux (b + 1) b :=
    congrArg String.data h
  have ha := decode_nat_repr_aux (a + 1) a (by omega)
  have hb := decode_nat_repr_aux (b + 1) b (by omega)
  rw [hdata, hb] at ha
  exact ha.symm

theorem nat_repr_aux_digit :
    ∀ fuel n c, c ∈ nat_repr_aux fuel n → 48 ≤ c.toNat ∧ c.toNat ≤ 57 := by
  intro fuel
  induction fuel with
  | zero => intro n c hc; simp [nat_repr_aux] at hc
  | succ f ih =>
    intro n c hc
    by_cases h10 : n < 10
    · rw [nat_repr_aux, if_pos h10, List.mem_singleton] at hc
      subst hc
      interval_cases n <;> simp [Nat.digitChar]
    · rw [nat_repr_aux, if_neg h10, List.mem_append] at hc
      rcases hc with hc | hc
      · exact ih (n / 10) c hc
      · rw [List.mem_singleton] at hc
        subst hc
        have : n % 10 < 10 := Nat.mod_lt n (by norm_num)
        interval_cases h : n % 10 <;> simp_all [Nat.digitChar]

theorem string_mk_inj {l l' : List Char} (h : String.mk l = String.mk l') :
    l = l' := congrArg String.data h

theorem string_data_inj {s s' : String} (h : s.data = s'.data) : s = s' := by
  cases s
  cases s'
  exact congrArg String.mk h

theorem int_to_string_injective : Function.Injective int_to_string := by
  intro a b h
  match a, b with
  | Int.ofNat m, Int.ofNat n =>
    exact congrArg Int.ofNat (nat_repr_injective h)
  | Int.negSucc m, Int.negSucc n =>
    have hd : ('-' :: (nat_repr (m + 1)).data) = ('-' :: (nat_repr (n + 1)).data) := by
      have := congrArg String.data h
      simpa [int_to_string, String.data_append] using this
    have : nat_repr (m + 1) = nat_repr (n + 1) :=
      string_data_inj (List.cons.injEq _ _ _ _ ▸ hd).2
    have hmn := nat_repr_injective this
    exact congrArg Int.negSucc (by omega : m = n)
  | Int.ofNat m, Int.negSucc n =>
    exfalso
    have hd : (nat_repr m).data = '-' :: (nat_repr (n + 1)).data := by
      have := congrArg String.data h
      simpa [int_to_string, String.data_append] using this
    have hmem : '-' ∈ nat_repr_aux (m + 1) m := by
      have : '-' ∈ (nat_repr m).data := by
        rw [hd]; exact List.mem_cons_self _ _
      simpa [nat_repr] using this
    have := nat_repr_aux_digit (m + 1) m '-' hmem
    simp at this
  | Int.negSucc m, Int.ofNat n =>
    exfalso
    have hd : (nat_repr n).data = '-' :: (nat_repr (m + 1)).data := by
      have := congrArg String.data h
      simpa [int_to_string, String.data_append] using this.symm
    have hmem : '-' ∈ nat_repr_aux (n + 1) n := by
      have : '-' ∈ (nat_repr n).data := by
        rw [hd]; exact List.mem_cons_self _ _
      simpa [nat_repr] using this
    have := nat_repr_aux_digit (n + 1) n '-' hmem
    simp at this

theorem month_str_data_length (m : Nat) (h1 : 1 ≤ m) (h2 : m ≤ 12) :
    (month_str m).data.length = 2 := by
  interval_cases m <;> rfl

theorem month_str_inj_of_le :
    ∀ m < 13, ∀ m' < 13, month_str m = month_str m' → m = m' := by decide

/-- The formatted `f"{year}_{month}"` tags of two cells with in-range
months agree only when the cells agree. -/
theorem tag_inj (y y' : Int) (m m' : Nat)
    (hm1 : 1 ≤ m) (hm2 : m ≤ 12) (hm1' : 1 ≤ m') (hm2' : m' ≤ 12)
    (h : int_to_string y ++ "_" ++ month_str m
        = int_to_string y' ++ "_" ++ month_str m') :
    y = y' ∧ m = m' := by
  have hd : ((int_to_string y).data ++ ['_']) ++ (month_str m).data
      = ((int_to_string y').data ++ ['_']) ++ (month_str m').data := by
    have := congrArg String.data h
    simpa [String.data_append, List.append_assoc] using this
  have hlen : (month_str m).data.length = (month_str m').data.length := by
    rw [month_str_data_length m hm1 hm2, month_str_data_length m' hm1' hm2']
  obtain ⟨hy, hmth⟩ := List.append_inj' hd hlen
  have hy' : (int_to_string y).data = (int_to_string y').data :=
    (List.append_inj' hy rfl).1
  refine ⟨int_to_string_injective (string_data_inj hy'), ?_⟩
  exact month_str_inj_of_le m (by omega) m' (by omega)
    (string_data_inj hmth)

example :
    retrieve_targets (events_of
      (cdsdl "ds" "v" "out" 2020 2021 (fun _ => false) (fun _ _ => (2025, 3)))) =
      ["out/v/2020_01.nc", "out/v/2020_02.nc", "out/v/2020_03.nc",
       "out/v/2020_04.nc", "out/v/2020_05.nc", "out/v/2020_06.nc",
       "out/v/2020_07.nc", "out/v/2020_08.nc", "out/v/2020_09.nc",
       "out/v/2020_10.nc", "out/v/2020_11.nc", "out/v/2020_12.nc"] := by
  decide

example :
    retrieve_targets (events_of
      (cdsdl "ds" "v" "out" 2025 2026 (fun _ => false) (fun _ _ => (2025, 6)))) =
      ["out/v/2025_01.nc", "out/v/2025_02.nc", "out/v/2025_03.nc",
       "out/v/2025_04.nc", "out/v/2025_05.nc"] := by
  decide

/-! ### Formatted tags -/

theorem cell_tag_ne (y y' : Int) (m m' : Nat)
    (hm1 : 1 ≤ m) (hm2 : m ≤ 12) (hm1' : 1 ≤ m') (hm2' : m' ≤ 12)
    (hne : y ≠ y' ∨ m ≠ m') : cell_tag y m ≠ now_tag (y', m') := by
  intro h
  have := tag_inj y y' m m' hm1 hm2 hm1' hm2' h
  rcases hne with hne | hne <;> exact hne (by tauto)

/-! ### Range lemmas -/

theorem mem_int_range_aux :
    ∀ (n : Nat) (a x : Int), x ∈ int_range_aux a n ↔ a ≤ x ∧ x < a + n := by
  intro n
  induction n with
  | zero => intro a x; simp [int_range_aux]
  | succ k ih =>
    intro a x
    rw [int_range_aux, List.mem_cons, ih (a + 1) x]
    push_cast
    omega

theorem mem_int_range (a b x : Int) : x ∈ int_range a b ↔ a ≤ x ∧ x < b := by
  rw [int_range, mem_int_range_aux]
  omega

theorem months_list_length : months_list.length = 12 := rfl

theorem months_list_get (i : Nat) (hi : i < months_list.length) :
    months_list.get ⟨i, hi⟩ = 1 + i := by
  simp [months_list, List.get_eq_getElem, List.getElem_range']

theorem mem_months_list (m : Nat) : m ∈ months_list ↔ 1 ≤ m ∧ m < 13 := by
  rw [months_list, List.mem_range'_1]

/-! ### Soundness of the loops: where retrieval calls can come from -/

theorem month_loop_retrieve_sound
    (dataset variable_ od : String) (fs : String → Bool)
    (clock : Int → Nat → Int × Nat) (y : Int) :
    ∀ (ms : List Nat) (d : String) (r : Request) (tgt : String),
      Event.retrieve d r tgt ∈ month_loop dataset variable_ od fs clock y ms →
      ∃ i, ∃ hi : i < ms.length,
        d = dataset ∧
        r = mk_request variable_ (int_to_string y) (month_str (ms.get ⟨i, hi⟩)) ∧
        tgt = target_path od y (ms.get ⟨i, hi⟩) ∧
        fs tgt = false ∧
        ∀ k, ∀ hk : k ≤ i,
          cell_tag y (ms.get ⟨k, Nat.lt_of_le_of_lt hk hi⟩)
            ≠ now_tag (clock y (ms.get ⟨k, Nat.lt_of_le_of_lt hk hi⟩)) := by
  intro ms
  induction ms with
  | nil => intro d r tgt hmem; simp [month_loop] at hmem
  | cons m rest ih =>
    intro d r tgt hmem
    rw [month_loop] at hmem
    by_cases hg : cell_tag y m = now_tag (clock y m)
    · rw [if_pos hg] at hmem
      simp at hmem
    · rw [if_neg hg] at hmem
      by_cases hf : fs (target_path od y m) = true
      · rw [if_pos hf] at hmem
        rcases List.mem_cons.mp hmem with hmem | hmem
        · exact absurd hmem (by simp)
        · obtain ⟨i, hi, hd, hr, htgt, hfs, hup⟩ := ih d r tgt hmem
          refine ⟨i + 1, by simpa using Nat.succ_lt_succ hi, hd, hr, htgt, hfs, ?_⟩
          intro k hk
          match k with
          | 0 => exact hg
          | k' + 1 => exact hup k' (by omega)
      · rw [if_neg hf] at hmem
        rcases List.mem_cons.mp hmem with hmem | hmem
        · exact absurd hmem (by simp)
        rcases List.mem_cons.mp hmem with hmem | hmem
        · obtain ⟨hd, hr, htgt⟩ := Event.retrieve.inj hmem
          refine ⟨0, by simp, hd, hr, htgt, ?_, ?_⟩
          · rw [htgt]
            simpa using hf
          · intro k hk
            match k with
            | 0 => exact hg
        · obtain ⟨i, hi, hd, hr, htgt, hfs, hup⟩ := ih d r tgt hmem
          refine ⟨i + 1, by simpa using Nat.succ_lt_succ hi, hd, hr, htgt, hfs, ?_⟩
          intro k hk
          match k with
          | 0 => exact hg
          | k' + 1 => exact hup k' (by omega)

theorem year_loop_retrieve_sound
    (dataset variable_ od : String) (fs : String → Bool)
    (clock : Int → Nat → Int × Nat) :
    ∀ (ys : List Int) (d : String) (r : Request) (tgt : String),
      Event.retrieve d r tgt ∈ year_loop dataset variable_ od fs clock ys →
      ∃ y ∈ ys,
        Event.retrieve d r tgt ∈ month_loop dataset variable_ od fs clock y months_list := by
  intro ys
  induction ys with
  | nil => intro d r tgt hmem; simp [year_loop] at hmem
  | cons y rest ih =>
    intro d r tgt hmem
    rw [year_loop, List.mem_append] at hmem
    rcases hmem with hmem | hmem
    · exact ⟨y, List.mem_cons_self _ _, hmem⟩
    · obtain ⟨y', hy', hmem'⟩ := ih d r tgt hmem
      exact ⟨y', List.mem_cons_of_mem _ hy', hmem'⟩

theorem cdsdl_retrieve_sound
    (dataset variable_ out : String) (start_year end_year : Int)
    (fs : String → Bool) (clock : Int → Nat → Int × Nat)
    (d : String) (r : Request) (tgt : String)
    (hmem : Event.retrieve d r tgt ∈
      events_of (cdsdl dataset variable_ out start_year end_year fs clock)) :
    ∃ y m, start_year ≤ y ∧ y < end_year ∧ 1 ≤ m ∧ m ≤ 12 ∧
      d = dataset ∧
      r = mk_request variable_ (int_to_string y) (month_str m) ∧
      tgt = target_path (path_join out variable_) y m ∧
      fs tgt = false ∧
      ∀ k, 1 ≤ k → k ≤ m → cell_tag y k ≠ now_tag (clock y k) := by
  rw [cdsdl] at hmem
  by_cases hlt : start_year < end_year
  · rw [if_neg (not_not_intro hlt)] at hmem
    rw [events_of] at hmem
    rcases List.mem_cons.mp hmem with hmem | hmem
    · exact absurd hmem (by simp)
    obtain ⟨y, hy, hmem'⟩ :=
      year_loop_retrieve_sound dataset variable_ _ fs clock _ d r tgt hmem
    obtain ⟨hy1, hy2⟩ := (mem_int_range _ _ _).mp hy
    obtain ⟨i, hi, hd, hr, htgt, hfs, hup⟩ :=
      month_loop_retrieve_sound dataset variable_ _ fs clock y _ d r tgt hmem'
    have hget : months_list.get ⟨i, hi⟩ = 1 + i := months_list_get i hi
    have hlen : i < 12 := by
      have := hi
      rwa [months_list_length] at this
    refine ⟨y, 1 + i, hy1, hy2, by omega, by omega, hd, by rwa [hget] at hr,
      by rwa [hget] at htgt, hfs, ?_⟩
    intro k hk1 hk2
    have hklt : k - 1 < months_list.length := by
      rw [months_list_length]; omega
    have hgetk : months_list.get ⟨k - 1, hklt⟩ = k := by
      rw [months_list_get]; omega
    have := hup (k - 1) (by omega)
    rwa [hgetk] at this
  · rw [if_pos hlt] at hmem
    simp [events_of] at hmem

/-! ### Decompositions of the month loop -/

theorem month_loop_append
    (dataset variable_ od : String) (fs : String → Bool)
    (clock : Int → Nat → Int × Nat) (y : Int) :
    ∀ (ms₁ ms₂ : List Nat),
      (∀ m ∈ ms₁, cell_tag y m ≠ now_tag (clock y m)) →
      month_loop dataset variable_ od fs clock y (ms₁ ++ ms₂) =
        month_loop dataset variable_ od fs clock y ms₁ ++
          month_loop dataset variable_ od fs clock y ms₂ := by
  intro ms₁
  induction ms₁ with
  | nil => intro ms₂ _; simp [month_loop]
  | cons m rest ih =>
    intro ms₂ hg
    have hgm : cell_tag y m ≠ now_tag (clock y m) := hg m (List.mem_cons_self _ _)
    have hgr : ∀ m' ∈ rest, cell_tag y m' ≠ now_tag (clock y m') :=
      fun m' hm' => hg m' (List.mem_cons_of_mem _ hm')
    rw [List.cons_append, month_loop, month_loop, if_neg hgm, if_neg hgm]
    by_cases hf : fs (target_path od y m) = true
    · rw [if_pos hf, if_pos hf, ih ms₂ hgr, List.cons_append]
    · rw [if_neg hf, if_neg hf, ih ms₂ hgr]
      simp

theorem month_loop_all_fresh
    (dataset variable_ od : String) (fs : String → Bool)
    (clock : Int → Nat → Int × Nat) (y : Int) :
    ∀ ms : List Nat,
      (∀ m ∈ ms, cell_tag y m ≠ now_tag (clock y m)) →
      (∀ m ∈ ms, fs (target_path od y m) = false) →
      month_loop dataset variable_ od fs clock y ms =
        ms.flatMap fun m =>
          [Event.downloading (target_path od y m),
           Event.retrieve dataset
             (mk_request variable_ (int_to_string y) (month_str m))
             (target_path od y m)] := by
  intro ms
  induction ms with
  | nil => intro _ _; simp [month_loop]
  | cons m rest ih =>
    intro hg hf
    have hgm : cell_tag y m ≠ now_tag (clock y m) := hg m (List.mem_cons_self _ _)
    have hfm : fs (target_path od y m) = false := hf m (List.mem_cons_self _ _)
    rw [month_loop, if_neg hgm, if_neg (by simp [hfm] : ¬ fs (target_path od y m) = true),
      ih (fun m' hm' => hg m' (List.mem_cons_of_mem _ hm'))
        (fun m' hm' => hf m' (List.mem_cons_of_mem _ hm'))]
    simp

theorem year_loop_mem_of_mem_month
    (dataset variable_ od : String) (fs : String → Bool)
    (clock : Int → Nat → Int × Nat) :
    ∀ (ys : List Int) (y : Int), y ∈ ys →
      ∀ e, e ∈ month_loop dataset variable_ od fs clock y months_list →
        e ∈ year_loop dataset variable_ od fs clock ys := by
  intro ys
  induction ys with
  | nil => intro y hy; simp at hy
  | cons y₀ rest ih =>
    intro y hy e he
    rw [year_loop, List.mem_append]
    rcases List.mem_cons.mp hy with hy | hy
    · subst hy
      exact Or.inl he
    · exact Or.inr (ih y hy e he)

theorem months_list_split (m : Nat) (hm1 : 1 ≤ m) (hm2 : m ≤ 12) :
    months_list = List.range' 1 (m - 1) ++ (m :: List.range' (m + 1) (12 - m)) := by
  have h1 : months_list = List.range' 1 ((13 - m) + (m - 1)) := by
    rw [months_list]
    congr 1
    omega
  have h2 : List.range' 1 (m - 1) ++ List.range' (1 + (m - 1)) (13 - m)
      = List.range' 1 ((13 - m) + (m - 1)) := List.range'_append_1 1 (m - 1) (13 - m)
  have h3 : 1 + (m - 1) = m := by omega
  have h4 : 13 - m = (12 - m) + 1 := by omega
  rw [h1, ← h2, h3, h4, List.range'_succ]

theorem month_loop_retrieve_present
    (dataset variable_ od : String) (fs : String → Bool)
    (clock : Int → Nat → Int × Nat) (y : Int) :
    ∀ ms : List Nat,
      (∀ k ∈ ms, cell_tag y k ≠ now_tag (clock y k)) →
      ∀ m ∈ ms, fs (target_path od y m) = false →
        Event.retrieve dataset
            (mk_request variable_ (int_to_string y) (month_str m))
            (target_path od y m)
          ∈ month_loop dataset variable_ od fs clock y ms := by
  intro ms
  induction ms with
  | nil => intro _ m hm; simp at hm
  | cons m₀ rest ih =>
    intro hg m hm hfs
    have hg0 : cell_tag y m₀ ≠ now_tag (clock y m₀) := hg m₀ (List.mem_cons_self _ _)
    rw [month_loop, if_neg hg0]
    rcases List.mem_cons.mp hm with hm | hm
    · subst hm
      rw [if_neg (by simp [hfs] : ¬ fs (target_path od y m) = true)]
      exact List.mem_cons_of_mem _ (List.mem_cons_self _ _)
    · have hrec := ih (fun k hk => hg k (List.mem_cons_of_mem _ hk)) m hm hfs
      by_cases hf0 : fs (target_path od y m₀) = true
      · rw [if_pos hf0]
        exact List.mem_cons_of_mem _ hrec
      · rw [if_neg hf0]
        exact List.mem_cons_of_mem _ (List.mem_cons_of_mem _ hrec)

theorem events_of_cdsdl (dataset variable_ out : String)
    (start_year end_year : Int) (fs : String → Bool)
    (clock : Int → Nat → Int × Nat) (h : start_year < end_year) :
    events_of (cdsdl dataset variable_ out start_year end_year fs clock)
      = Event.makedirs (path_join out variable_) ::
          year_loop dataset variable_ (path_join out variable_) fs clock
            (int_range start_year end_year) := by
  simp [cdsdl, events_of, h]

/-! ### Claim theorems -/

/-- C2: for every pair of arguments with start ≥ end, the run terminates
abnormally with the exact message "start year must be less than end year",
and its event trace is empty: no directory is created and the retrieval
collaborator is never invoked. -/
theorem start_not_lt_end_aborts (dataset variable_ out : String)
    (start_year end_year : Int) (fs : String → Bool)
    (clock : Int → Nat → Int × Nat) (h : ¬ start_year < end_year) :
    cdsdl dataset variable_ out start_year end_year fs clock
      = Except.error "start year must be less than end year" ∧
    events_of (cdsdl dataset variable_ out start_year end_year fs clock) = [] := by
  refine ⟨by simp [cdsdl, h], ?_⟩
  simp [cdsdl, h, events_of]

theorem start_not_lt_end_aborts_witness :
    cdsdl "reanalysis-era5-land" "total_precipitation" "/data" 2025 2020
        (fun _ => false) (fun _ _ => (2025, 6))
      = Except.error "start year must be less than end year" ∧
    events_of (cdsdl "reanalysis-era5-land" "total_precipitation" "/data" 2025 2020
        (fun _ => false) (fun _ _ => (2025, 6))) = [] :=
  start_not_lt_end_aborts "reanalysis-era5-land" "total_precipitation" "/data"
    2025 2020 (fun _ => false) (fun _ _ => (2025, 6)) (by decide)

/-- C10: the current-month guard is evaluated before the file-existence
check: when the cell about to be processed equals the clock's (year, month),
the iteration emits only the "current month not yet complete" skip and ends
the month loop, and the "already exists" skip is never emitted for that
cell, even though its target file is present (`fs` returns true on it). -/
theorem guard_checked_before_isfile (dataset variable_ od : String)
    (fs : String → Bool) (clock : Int → Nat → Int × Nat) (y : Int) (m : Nat)
    (rest : List Nat) (hclock : clock y m = (y, m))
    (_hfs : fs (target_path od y m) = true) :
    month_loop dataset variable_ od fs clock y (m :: rest)
      = [Event.skip_current (target_path od y m)] ∧
    Event.skip_exists (target_path od y m)
      ∉ month_loop dataset variable_ od fs clock y (m :: rest) := by
  have hg : cell_tag y m = now_tag (clock y m) := by rw [hclock]; rfl
  refine ⟨?_, ?_⟩
  · rw [month_loop, if_pos hg]
  · rw [month_loop, if_pos hg]
    simp

theorem guard_checked_before_isfile_witness :
    month_loop "ds" "v" "o/v" (fun _ => true) (fun _ _ => (2025, 6)) 2025 (6 :: [7, 8])
      = [Event.skip_current (target_path "o/v" 2025 6)] ∧
    Event.skip_exists (target_path "o/v" 2025 6)
      ∉ month_loop "ds" "v" "o/v" (fun _ => true) (fun _ _ => (2025, 6)) 2025 (6 :: [7, 8]) :=
  guard_checked_before_isfile "ds" "v" "o/v" (fun _ => true) (fun _ _ => (2025, 6))
    2025 6 [7, 8] rfl (by decide)

/-- C1: if the clock reading taken when cell (y, m) is processed equals
(y, m) itself, then no retrieval request of that run is for month m or for
any later month of year y: the guard's break ends the whole inner month
iteration for that year. -/
theorem current_month_guard_cuts_year (dataset variable_ out : String)
    (start_year end_year : Int) (fs : String → Bool)
    (clock : Int → Nat → Int × Nat) (y : Int) (m : Nat)
    (hm : 1 ≤ m) (hclock : clock y m = (y, m)) :
    ∀ d r tgt, Event.retrieve d r tgt ∈
        events_of (cdsdl dataset variable_ out start_year end_year fs clock) →
      ∀ m', m ≤ m' → m' ≤ 12 →
        r ≠ mk_request variable_ (int_to_string y) (month_str m') := by
  intro d r tgt hmem m' hm1 hm2 hr
  obtain ⟨y₀, m₀, _, _, hm01, hm02, _, hreq, _, _, hup⟩ :=
    cdsdl_retrieve_sound dataset variable_ out start_year end_year fs clock
      d r tgt hmem
  rw [hr] at hreq
  simp only [mk_request, Request.mk.injEq, and_true, true_and] at hreq
  obtain ⟨hyeq, hmeq⟩ := hreq
  have hy0 : y = y₀ := int_to_string_injective hyeq
  have hm0 : m' = m₀ :=
    month_str_inj_of_le m' (by omega) m₀ (by omega) hmeq
  have := hup m hm (by omega)
  rw [← hy0, hclock] at this
  exact this rfl

theorem current_month_guard_cuts_year_witness :
    mk_request "v" (int_to_string 2020) (month_str 1)
      ≠ mk_request "v" (int_to_string 2020) (month_str 5) :=
  current_month_guard_cuts_year "ds" "v" "o" 2020 2021 (fun _ => false)
    (fun _ _ => (2020, 5)) 2020 5 (by decide) rfl
    "ds" (mk_request "v" (int_to_string 2020) (month_str 1))
    (target_path (path_join "o" "v") 2020 1) (by decide) 5 (by decide) (by decide)

/-- C6: every retrieval request carries exactly the fields built by the
script: the variable as a one-element list, year and month rendered as
strings with the month zero-padded to two digits, the fixed 31-entry day
list, the fixed 24-entry time list, "netcdf" and "unarchived". -/
theorem request_shape (dataset variable_ out : String)
    (start_year end_year : Int) (fs : String → Bool)
    (clock : Int → Nat → Int × Nat) (d : String) (r : Request) (tgt : String)
    (hmem : Event.retrieve d r tgt ∈
      events_of (cdsdl dataset variable_ out start_year end_year fs clock)) :
    r.variable_ = [variable_] ∧
    (∃ y m, 1 ≤ m ∧ m ≤ 12 ∧ r.year = int_to_string y ∧ r.month = month_str m) ∧
    r.day = days ∧ days.length = 31 ∧
    r.time = times ∧ times.length = 24 ∧
    r.data_format = "netcdf" ∧ r.download_format = "unarchived" := by
  obtain ⟨y, m, _, _, hm1, hm2, _, hreq, _, _, _⟩ :=
    cdsdl_retrieve_sound dataset variable_ out start_year end_year fs clock
      d r tgt hmem
  subst hreq
  exact ⟨rfl, ⟨y, m, hm1, hm2, rfl, rfl⟩, rfl, rfl, rfl, rfl, rfl, rfl⟩

theorem request_shape_witness :
    (mk_request "v" (int_to_string 2020) (month_str 1)).variable_ = ["v"] ∧
    (∃ y m, 1 ≤ m ∧ m ≤ 12 ∧
      (mk_request "v" (int_to_string 2020) (month_str 1)).year = int_to_string y ∧
      (mk_request "v" (int_to_string 2020) (month_str 1)).month = month_str m) ∧
    (mk_request "v" (int_to_string 2020) (month_str 1)).day = days ∧
    days.length = 31 ∧
    (mk_request "v" (int_to_string 2020) (month_str 1)).time = times ∧
    times.length = 24 ∧
    (mk_request "v" (int_to_string 2020) (month_str 1)).data_format = "netcdf" ∧
    (mk_request "v" (int_to_string 2020) (month_str 1)).download_format = "unarchived" :=
  request_shape "ds" "v" "o" 2020 2021 (fun _ => false) (fun _ _ => (2025, 3))
    "ds" (mk_request "v" (int_to_string 2020) (month_str 1))
    (target_path (path_join "o" "v") 2020 1) (by decide)

/-- C8: when the precondition holds, the very first event of the run is the
creation of the `<output_directory>/<variable>` subdirectory (before any
loop event), and every target path handed to the retrieval collaborator is
`<output_directory>/<variable>/<YYYY>_<MM>.nc` for its cell, with the month
zero-padded to two digits. -/
theorem makedirs_first_and_target_layout (dataset variable_ out : String)
    (start_year end_year : Int) (fs : String → Bool)
    (clock : Int → Nat → Int × Nat) (h : start_year < end_year) :
    (events_of (cdsdl dataset variable_ out start_year end_year fs clock)).head?
      = some (Event.makedirs (path_join out variable_)) ∧
    ∀ d r tgt, Event.retrieve d r tgt ∈
        events_of (cdsdl dataset variable_ out start_year end_year fs clock) →
      ∃ y m, 1 ≤ m ∧ m ≤ 12 ∧
        tgt = target_path (path_join out variable_) y m ∧
        r = mk_request variable_ (int_to_string y) (month_str m) := by
  refine ⟨?_, ?_⟩
  · simp [cdsdl, events_of, h]
  · intro d r tgt hmem
    obtain ⟨y, m, _, _, hm1, hm2, _, hreq, htgt, _, _⟩ :=
      cdsdl_retrieve_sound dataset variable_ out start_year end_year fs clock
        d r tgt hmem
    exact ⟨y, m, hm1, hm2, htgt, hreq⟩

theorem makedirs_first_and_target_layout_witness :
    (events_of (cdsdl "ds" "v" "o" 2020 2021 (fun _ => false)
        (fun _ _ => (2025, 3)))).head?
      = some (Event.makedirs (path_join "o" "v")) ∧
    ∃ y m, 1 ≤ m ∧ m ≤ 12 ∧
      target_path (path_join "o" "v") 2020 1 = target_path (path_join "o" "v") y m ∧
      mk_request "v" (int_to_string 2020) (month_str 1)
        = mk_request "v" (int_to_string y) (month_str m) :=
  ⟨(makedirs_first_and_target_layout "ds" "v" "o" 2020 2021 (fun _ => false)
      (fun _ _ => (2025, 3)) (by decide)).1,
   (makedirs_first_and_target_layout "ds" "v" "o" 2020 2021 (fun _ => false)
      (fun _ _ => (2025, 3)) (by decide)).2
     "ds" (mk_request "v" (int_to_string 2020) (month_str 1))
     (target_path (path_join "o" "v") 2020 1) (by decide)⟩

/-- C3: a cell that the loop reaches (the current-month guard fires neither
at it nor at any earlier month of its year) and whose target file exists is
skipped with the "already exists" message, and the retrieval collaborator
is never invoked with that cell's target path anywhere in the run. -/
theorem existing_file_skipped (dataset variable_ out : String)
    (start_year end_year : Int) (fs : String → Bool)
    (clock : Int → Nat → Int × Nat) (y : Int) (m : Nat)
    (hy1 : start_year ≤ y) (hy2 : y < end_year) (hm1 : 1 ≤ m) (hm2 : m ≤ 12)
    (hreach : ∀ k, 1 ≤ k → k ≤ m → cell_tag y k ≠ now_tag (clock y k))
    (hfs : fs (target_path (path_join out variable_) y m) = true) :
    Event.skip_exists (target_path (path_join out variable_) y m)
      ∈ events_of (cdsdl dataset variable_ out start_year end_year fs clock) ∧
    ∀ d r, Event.retrieve d r (target_path (path_join out variable_) y m)
      ∉ events_of (cdsdl dataset variable_ out start_year end_year fs clock) := by
  have hlt : start_year < end_year := lt_of_le_of_lt hy1 hy2
  refine ⟨?_, ?_⟩
  · rw [events_of_cdsdl dataset variable_ out start_year end_year fs clock hlt]
    refine List.mem_cons_of_mem _ ?_
    refine year_loop_mem_of_mem_month dataset variable_ _ fs clock _ y
      ((mem_int_range _ _ _).mpr ⟨hy1, hy2⟩) _ ?_
    rw [months_list_split m hm1 hm2,
      month_loop_append dataset variable_ _ fs clock y _ _ ?_]
    · rw [List.mem_append]
      refine Or.inr ?_
      rw [month_loop, if_neg (hreach m hm1 le_rfl), if_pos hfs]
      exact List.mem_cons_self _ _
    · intro k hk
      rw [List.mem_range'_1] at hk
      exact hreach k (by omega) (by omega)
  · intro d r hmem
    obtain ⟨y', m', _, _, _, _, _, _, htgt, hfsf, _⟩ :=
      cdsdl_retrieve_sound dataset variable_ out start_year end_year fs clock
        d r _ hmem
    rw [hfsf] at hfs
    exact Bool.false_ne_true hfs

theorem existing_file_skipped_witness :
    Event.skip_exists (target_path (path_join "o" "v") 2019 6)
      ∈ events_of (cdsdl "ds" "v" "o" 2019 2020
          (fun p => p == "o/v/2019_06.nc") (fun _ _ => (2025, 3))) ∧
    Event.retrieve "ds" (mk_request "v" (int_to_string 2019) (month_str 6))
        (target_path (path_join "o" "v") 2019 6)
      ∉ events_of (cdsdl "ds" "v" "o" 2019 2020
          (fun p => p == "o/v/2019_06.nc") (fun _ _ => (2025, 3))) := by
  have h := existing_file_skipped "ds" "v" "o" 2019 2020
    (fun p => p == "o/v/2019_06.nc") (fun _ _ => (2025, 3)) 2019 6
    (by decide) (by decide) (by decide) (by decide)
    (by intro k h1 h2; interval_cases k <;> decide) (by decide)
  exact ⟨h.1, h.2 "ds" (mk_request "v" (int_to_string 2019) (month_str 6))⟩

/-- C9: the current-month guard cuts short only the year in which it fires:
in any year of the range whose clock readings all show an earlier current
year, every month whose target file is absent gets a retrieval call — in
particular, cells lying entirely in the future are retrieved when the range
extends beyond the current year. -/
theorem later_year_still_retrieved (dataset variable_ out : String)
    (start_year end_year : Int) (fs : String → Bool)
    (clock : Int → Nat → Int × Nat) (y : Int) (m : Nat)
    (hy1 : start_year ≤ y) (hy2 : y < end_year) (hm1 : 1 ≤ m) (hm2 : m ≤ 12)
    (hclock : ∀ m', 1 ≤ m' → m' ≤ 12 →
      1 ≤ (clock y m').2 ∧ (clock y m').2 ≤ 12 ∧ (clock y m').1 < y)
    (hfs : fs (target_path (path_join out variable_) y m) = false) :
    Event.retrieve dataset (mk_request variable_ (int_to_string y) (month_str m))
        (target_path (path_join out variable_) y m)
      ∈ events_of (cdsdl dataset variable_ out start_year end_year fs clock) := by
  have hlt : start_year < end_year := lt_of_le_of_lt hy1 hy2
  rw [events_of_cdsdl dataset variable_ out start_year end_year fs clock hlt]
  refine List.mem_cons_of_mem _ ?_
  refine year_loop_mem_of_mem_month dataset variable_ _ fs clock _ y
    ((mem_int_range _ _ _).mpr ⟨hy1, hy2⟩) _ ?_
  refine month_loop_retrieve_present dataset variable_ _ fs clock y
    months_list ?_ m ((mem_months_list m).mpr ⟨hm1, by omega⟩) hfs
  intro k hk
  rw [mem_months_list] at hk
  obtain ⟨hc1, hc2, hc3⟩ := hclock k (by omega) (by omega)
  exact cell_tag_ne y (clock y k).1 k (clock y k).2
    (by omega) (by omega) hc1 hc2 (Or.inl (by omega))

theorem later_year_still_retrieved_witness :
    Event.retrieve "ds" (mk_request "v" (int_to_string 2026) (month_str 3))
        (target_path (path_join "o" "v") 2026 3)
      ∈ events_of (cdsdl "ds" "v" "o" 2025 2027 (fun _ => false)
          (fun _ _ => (2025, 6))) :=
  later_year_still_retrieved "ds" "v" "o" 2025 2027 (fun _ => false)
    (fun _ _ => (2025, 6)) 2026 3 (by decide) (by decide) (by decide) (by decide)
    (by intro m' h1 h2; refine ⟨?_, ?_, ?_⟩ <;> norm_num) rfl

theorem retrieve_targets_flatMap (dataset variable_ od : String) (y : Int) :
    ∀ ms : List Nat,
      retrieve_targets (ms.flatMap fun m =>
        [Event.downloading (target_path od y m),
         Event.retrieve dataset
           (mk_request variable_ (int_to_string y) (month_str m))
           (target_path od y m)])
      = ms.map fun m => target_path od y m := by
  intro ms
  induction ms with
  | nil => simp [retrieve_targets]
  | cons m rest ih =>
    simp only [retrieve_targets] at ih ⊢
    simp only [List.flatMap_cons, List.filterMap_append, List.map_cons]
    rw [ih]
    rfl

/-- C5: with `--start 2020 --end 2021`, an empty output directory, and a
clock whose current year is never 2020, the run makes exactly twelve
retrieval calls whose target paths are `<out>/<variable>/2020_01.nc`
through `2020_12.nc`, and every request of the run is for year 2020 (none
for 2021). -/
theorem single_year_full_download (dataset variable_ out : String)
    (fs : String → Bool) (clock : Int → Nat → Int × Nat)
    (hfs : ∀ p, fs p = false)
    (hclock : ∀ y m, (clock y m).1 ≠ 2020 ∧ 1 ≤ (clock y m).2 ∧ (clock y m).2 ≤ 12) :
    retrieve_targets (events_of (cdsdl dataset variable_ out 2020 2021 fs clock))
      = months_list.map (fun m => target_path (path_join out variable_) 2020 m) ∧
    (retrieve_targets (events_of (cdsdl dataset variable_ out 2020 2021 fs clock))).length
      = 12 ∧
    (months_list.map fun m => int_to_string 2020 ++ "_" ++ month_str m ++ ".nc")
      = ["2020_01.nc", "2020_02.nc", "2020_03.nc", "2020_04.nc",
         "2020_05.nc", "2020_06.nc", "2020_07.nc", "2020_08.nc",
         "2020_09.nc", "2020_10.nc", "2020_11.nc", "2020_12.nc"] ∧
    ∀ d r tgt, Event.retrieve d r tgt ∈
        events_of (cdsdl dataset variable_ out 2020 2021 fs clock) →
      r.year = int_to_string 2020 := by
  have hrange : int_range 2020 2021 = [2020] := by decide
  have hguards : ∀ k ∈ months_list, cell_tag 2020 k ≠ now_tag (clock 2020 k) := by
    intro k hk
    rw [mem_months_list] at hk
    obtain ⟨hc1, hc2, hc3⟩ := hclock 2020 k
    exact cell_tag_ne 2020 (clock 2020 k).1 k (clock 2020 k).2
      (by omega) (by omega) hc2 hc3 (Or.inl (Ne.symm hc1))
  have hmain :
      retrieve_targets (events_of (cdsdl dataset variable_ out 2020 2021 fs clock))
        = months_list.map fun m => target_path (path_join out variable_) 2020 m := by
    rw [events_of_cdsdl dataset variable_ out 2020 2021 fs clock (by decide),
      hrange, year_loop, year_loop, List.append_nil,
      month_loop_all_fresh dataset variable_ _ fs clock 2020 months_list hguards
        (fun m _ => hfs _)]
    rw [retrieve_targets, List.filterMap_cons]
    exact retrieve_targets_flatMap dataset variable_ (path_join out variable_) 2020
      months_list
  refine ⟨hmain, by rw [hmain]; rfl, by decide, ?_⟩
  intro d r tgt hmem
  obtain ⟨y, m, hy1, hy2, _, _, _, hreq, _, _, _⟩ :=
    cdsdl_retrieve_sound dataset variable_ out 2020 2021 fs clock d r tgt hmem
  have : y = 2020 := by omega
  subst this
  rw [hreq]
  rfl

theorem single_year_full_download_witness :
    retrieve_targets (events_of (cdsdl "reanalysis-era5-land" "total_precipitation"
        "o" 2020 2021 (fun _ => false) (fun _ _ => (2025, 3))))
      = months_list.map (fun m =>
          target_path (path_join "o" "total_precipitation") 2020 m) ∧
    (retrieve_targets (events_of (cdsdl "reanalysis-era5-land" "total_precipitation"
        "o" 2020 2021 (fun _ => false) (fun _ _ => (2025, 3))))).length = 12 ∧
    (months_list.map fun m => int_to_string 2020 ++ "_" ++ month_str m ++ ".nc")
      = ["2020_01.nc", "2020_02.nc", "2020_03.nc", "2020_04.nc",
         "2020_05.nc", "2020_06.nc", "2020_07.nc", "2020_08.nc",
         "2020_09.nc", "2020_10.nc", "2020_11.nc", "2020_12.nc"] ∧
    (mk_request "total_precipitation" (int_to_string 2020) (month_str 1)).year
      = int_to_string 2020 := by
  have h := single_year_full_download "reanalysis-era5-land" "total_precipitation"
    "o" (fun _ => false) (fun _ _ => (2025, 3)) (fun _ => rfl)
    (by intro y m; refine ⟨?_, ?_, ?_⟩ <;> norm_num)
  exact ⟨h.1, h.2.1, h.2.2.1, h.2.2.2 "reanalysis-era5-land"
    (mk_request "total_precipitation" (int_to_string 2020) (month_str 1))
    (target_path (path_join "o" "total_precipitation") 2020 1) (by decide)⟩

theorem month_loop_cells_sublist
    (dataset variable_ od : String) (fs : String → Bool)
    (clock : Int → Nat → Int × Nat) (y : Int) :
    ∀ ms : List Nat, ∃ ns : List Nat,
      List.Sublist ns ms ∧
      retrieve_cells (month_loop dataset variable_ od fs clock y ms)
        = ns.map fun m => (int_to_string y, month_str m) := by
  intro ms
  induction ms with
  | nil => exact ⟨[], List.Sublist.refl _, rfl⟩
  | cons m rest ih =>
    obtain ⟨ns, hsub, heq⟩ := ih
    rw [month_loop]
    by_cases hg : cell_tag y m = now_tag (clock y m)
    · rw [if_pos hg]
      exact ⟨[], List.nil_sublist _, rfl⟩
    · rw [if_neg hg]
      by_cases hf : fs (target_path od y m) = true
      · rw [if_pos hf]
        exact ⟨ns, List.Sublist.cons m hsub, by
          simpa [retrieve_cells, List.filterMap_cons] using heq⟩
      · rw [if_neg hf]
        refine ⟨m :: ns, List.Sublist.cons₂ m hsub, ?_⟩
        simp only [retrieve_cells, List.filterMap_cons] at heq ⊢
        rw [heq]
        rfl

theorem year_loop_cells_sublist
    (dataset variable_ od : String) (fs : String → Bool)
    (clock : Int → Nat → Int × Nat) :
    ∀ ys : List Int, ∃ ps : List (Int × Nat),
      List.Sublist ps (ys.flatMap fun y => months_list.map fun m => (y, m)) ∧
      retrieve_cells (year_loop dataset variable_ od fs clock ys)
        = ps.map fun p => (int_to_string p.1, month_str p.2) := by
  intro ys
  induction ys with
  | nil => exact ⟨[], List.Sublist.refl _, rfl⟩
  | cons y rest ih =>
    obtain ⟨ps, hsub, heq⟩ := ih
    obtain ⟨ns, hsub', heq'⟩ :=
      month_loop_cells_sublist dataset variable_ od fs clock y months_list
    refine ⟨(ns.map fun m => (y, m)) ++ ps, ?_, ?_⟩
    · rw [List.flatMap_cons]
      exact List.Sublist.append (List.Sublist.map _ hsub') hsub
    · rw [year_loop, retrieve_cells, List.filterMap_append, ← retrieve_cells,
        ← retrieve_cells, heq, heq', List.map_append, List.map_map]
      rfl

theorem months_list_pairwise : months_list.Pairwise (· < ·) := by decide

theorem grid_pairwise :
    ∀ ys : List Int, ys.Pairwise (· < ·) →
      (ys.flatMap fun y => months_list.map fun m => (y, m)).Pairwise chron := by
  intro ys
  induction ys with
  | nil => intro _; simp
  | cons y rest ih =>
    intro hp
    rw [List.pairwise_cons] at hp
    rw [List.flatMap_cons, List.pairwise_append]
    refine ⟨?_, ih hp.2, ?_⟩
    · rw [List.pairwise_map]
      exact months_list_pairwise.imp fun h => Or.inr ⟨rfl, h⟩
    · intro a ha b hb
      obtain ⟨ma, _, rfl⟩ := List.mem_map.mp ha
      obtain ⟨y', hy', hb'⟩ := List.mem_flatMap.mp hb
      obtain ⟨mb, _, rfl⟩ := List.mem_map.mp hb'
      exact Or.inl (hp.1 y' hy')

theorem int_range_aux_pairwise :
    ∀ (n : Nat) (a : Int), (int_range_aux a n).Pairwise (· < ·) := by
  intro n
  induction n with
  | zero => intro a; simp [int_range_aux]
  | succ k ih =>
    intro a
    rw [int_range_aux, List.pairwise_cons]
    refine ⟨?_, ih (a + 1)⟩
    intro x hx
    have := (mem_int_range_aux k (a + 1) x).mp hx
    omega

/-- C7: the (year, month) cells are visited with years ascending over the
range and months ascending 1..12 within each year, so the sequence of
(year, month) pairs for which the retrieval collaborator is invoked is
strictly increasing in chronological order. -/
theorem calls_chronological (dataset variable_ out : String)
    (start_year end_year : Int) (fs : String → Bool)
    (clock : Int → Nat → Int × Nat) :
    (int_range start_year end_year).Pairwise (· < ·) ∧
    months_list.Pairwise (· < ·) ∧
    ∃ ps : List (Int × Nat),
      retrieve_cells (events_of
          (cdsdl dataset variable_ out start_year end_year fs clock))
        = ps.map (fun p => (int_to_string p.1, month_str p.2)) ∧
      ps.Pairwise chron := by
  refine ⟨int_range_aux_pairwise _ _, months_list_pairwise, ?_⟩
  by_cases h : start_year < end_year
  · rw [events_of_cdsdl dataset variable_ out start_year end_year fs clock h]
    obtain ⟨ps, hsub, heq⟩ :=
      year_loop_cells_sublist dataset variable_ (path_join out variable_) fs clock
        (int_range start_year end_year)
    refine ⟨ps, ?_, ?_⟩
    · rw [retrieve_cells, List.filterMap_cons, ← retrieve_cells] at *
      exact heq
    · exact (grid_pairwise _ (int_range_aux_pairwise _ _)).sublist hsub
  · refine ⟨[], ?_, List.Pairwise.nil⟩
    simp [cdsdl, events_of, h, retrieve_cells]

/-! ### Re-running with the files of a first run -/

theorem retrieve_targets_skip_current (t : String) (l : List Event) :
    retrieve_targets (Event.skip_current t :: l) = retrieve_targets l := rfl

theorem retrieve_targets_skip_exists (t : String) (l : List Event) :
    retrieve_targets (Event.skip_exists t :: l) = retrieve_targets l := rfl

theorem retrieve_targets_download (d : String) (r : Request) (t : String)
    (l : List Event) :
    retrieve_targets (Event.downloading t :: Event.retrieve d r t :: l)
      = t :: retrieve_targets l := rfl

theorem month_loop_second_run
    (dataset variable_ od : String) (fs₁ fs₂ : String → Bool)
    (clock : Int → Nat → Int × Nat) (y : Int)
    (hkeep : ∀ p, fs₁ p = true → fs₂ p = true) :
    ∀ ms : List Nat,
      (∀ p ∈ retrieve_targets (month_loop dataset variable_ od fs₁ clock y ms),
        fs₂ p = true) →
      retrieve_targets (month_loop dataset variable_ od fs₂ clock y ms) = [] := by
  intro ms
  induction ms with
  | nil => intro _; rfl
  | cons m rest ih =>
    intro hcov
    rw [month_loop] at hcov ⊢
    by_cases hg : cell_tag y m = now_tag (clock y m)
    · rw [if_pos hg] at hcov ⊢
      rfl
    · rw [if_neg hg] at hcov ⊢
      by_cases hf1 : fs₁ (target_path od y m) = true
      · rw [if_pos hf1, retrieve_targets_skip_exists] at hcov
        rw [if_pos (hkeep _ hf1), retrieve_targets_skip_exists]
        exact ih hcov
      · rw [if_neg hf1, retrieve_targets_download] at hcov
        have htgt : fs₂ (target_path od y m) = true :=
          hcov _ (List.mem_cons_self _ _)
        rw [if_pos htgt, retrieve_targets_skip_exists]
        exact ih fun p hp => hcov p (List.mem_cons_of_mem _ hp)

theorem year_loop_second_run
    (dataset variable_ od : String) (fs₁ fs₂ : String → Bool)
    (clock : Int → Nat → Int × Nat)
    (hkeep : ∀ p, fs₁ p = true → fs₂ p = true) :
    ∀ ys : List Int,
      (∀ p ∈ retrieve_targets (year_loop dataset variable_ od fs₁ clock ys),
        fs₂ p = true) →
      retrieve_targets (year_loop dataset variable_ od fs₂ clock ys) = [] := by
  intro ys
  induction ys with
  | nil => intro _; rfl
  | cons y rest ih =>
    intro hcov
    rw [year_loop, retrieve_targets, List.filterMap_append,
      ← retrieve_targets, ← retrieve_targets] at hcov ⊢
    have hcov₁ : ∀ p ∈ retrieve_targets
        (month_loop dataset variable_ od fs₁ clock y months_list), fs₂ p = true :=
      fun p hp => hcov p (List.mem_append_left _ hp)
    have hcov₂ : ∀ p ∈ retrieve_targets
        (year_loop dataset variable_ od fs₁ clock rest), fs₂ p = true :=
      fun p hp => hcov p (List.mem_append_right _ hp)
    rw [month_loop_second_run dataset variable_ od fs₁ fs₂ clock y hkeep
        months_list hcov₁,
      ih hcov₂]
    rfl

/-- C4 (amended): when the filesystem of the second run contains every file
of the first run and every target requested in the first run, and the two
runs observe the same clock readings, the second run makes zero retrieval
calls. -/
theorem second_run_no_calls (dataset variable_ out : String)
    (start_year end_year : Int) (fs₁ fs₂ : String → Bool)
    (clock : Int → Nat → Int × Nat)
    (hkeep : ∀ p, fs₁ p = true → fs₂ p = true)
    (hcov : ∀ p ∈ retrieve_targets (events_of
        (cdsdl dataset variable_ out start_year end_year fs₁ clock)),
      fs₂ p = true) :
    retrieve_targets (events_of
        (cdsdl dataset variable_ out start_year end_year fs₂ clock)) = [] := by
  by_cases h : start_year < end_year
  · rw [events_of_cdsdl dataset variable_ out start_year end_year fs₁ clock h]
      at hcov
    rw [events_of_cdsdl dataset variable_ out start_year end_year fs₂ clock h]
    rw [retrieve_targets, List.filterMap_cons, ← retrieve_targets] at hcov ⊢
    exact year_loop_second_run dataset variable_ _ fs₁ fs₂ clock hkeep _ hcov
  · simp [cdsdl, events_of, h, retrieve_targets]

theorem second_run_no_calls_witness :
    retrieve_targets (events_of (cdsdl "ds" "v" "o" 2020 2022
      (fun p => (retrieve_targets (events_of (cdsdl "ds" "v" "o" 2020 2022
        (fun _ => false) (fun _ _ => (2030, 1))))).contains p)
      (fun _ _ => (2030, 1)))) = [] :=
  second_run_no_calls "ds" "v" "o" 2020 2022 (fun _ => false)
    (fun p => (retrieve_targets (events_of (cdsdl "ds" "v" "o" 2020 2022
      (fun _ => false) (fun _ _ => (2030, 1))))).contains p)
    (fun _ _ => (2030, 1))
    (fun p h => absurd h Bool.false_ne_true)
    (by decide)

/-- The trace of a first run whose clock reads December 2025, over the year
range [2025, 2026). -/
def first_run_trace : List Event :=
  events_of (cdsdl "ds" "v" "o" 2025 2026 (fun _ => false) (fun _ _ => (2025, 12)))

/-- The filesystem after that first run, assuming the collaborator created
every requested target file. -/
def after_first_run (p : String) : Bool :=
  (retrieve_targets first_run_trace).contains p

/-- The trace of a second, identical run whose clock has moved on to
January 2026. -/
def second_run_trace : List Event :=
  events_of (cdsdl "ds" "v" "o" 2025 2026 after_first_run (fun _ _ => (2026, 1)))

/-- C4, as stated, is false: after a first run under a December 2025 clock
over [2025, 2026), with every requested file created, and with no (year,
month) cell of the grid becoming current between the runs (January 2026 is
outside the grid), the second run still makes one retrieval call — for
December 2025, which the first run's guard had cut off. -/
theorem second_run_calls_counterexample :
    (∀ p ∈ retrieve_targets first_run_trace, after_first_run p = true) ∧
    (∀ y ∈ int_range 2025 2026, ∀ m ∈ months_list,
      (y, m) = ((2026 : Int), 1) → (y, m) = ((2025 : Int), 12)) ∧
    retrieve_targets second_run_trace
      = [target_path (path_join "o" "v") 2025 12] := by
  refine ⟨by decide, by decide, by decide⟩

end Cdsdl
